import Mathlib

/-!
Verification development for the NLib ModFlow engine (`include/nlib/nl_modflow.h`).

The embedding models the channel/connection graph engine: channels with type
signatures and ownership, the event causal chain, the type-erased slot
dispatch, the enabling-channel gate, and the emit paths (void fan-out and
non-void single-connection service calls).  C++ pointers to modules are
modelled by module indices; `std::type_index` lists by lists of type tags;
values crossing the type-erasure boundary by a small closed value type.
Assertion failures (which abort the process) are modelled by `Except Fault`.
-/

set_option maxRecDepth 4000

namespace NLib

abbrev ChannelId := Nat
abbrev ModuleId := Nat

/-- Tags standing for `std::type_index` values: the runtime type identities
compared by `Channel::checkType`. -/
inductive TypeTag where
  | tint
  | tstr
  | tbool
  deriving DecidableEq

/-- Payload values flowing through the type-erased dispatch. -/
inductive Val where
  | vint (n : Int)
  | vstr (s : String)
  | vbool (b : Bool)
  deriving DecidableEq

/-- The runtime type identity of a value (`typeid(T)` of the emitted argument). -/
def Val.tag : Val → TypeTag
  | .vint _ => .tint
  | .vstr _ => .tstr
  | .vbool _ => .tbool

/-- `Channel`: id, name, type signature, owning module, sink flag
(nl_modflow.h, class `Channel`). -/
structure Channel where
  id : ChannelId
  name : String
  types : List TypeTag
  owner : ModuleId
  isSink : Bool
  deriving DecidableEq

/-- `Channel::checkType`: the supplied type list must equal the stored
signature exactly (`stackTypes(&typeid(T)...) == _types`). -/
def Channel.checkType (ch : Channel) (argTypes : List TypeTag) : Bool :=
  argTypes == ch.types

/-- `Channel::checkOwnership`: any module may emit on a sink; otherwise the
caller must be the owning module (pointer comparison `caller == _owner`). -/
def Channel.checkOwnership (ch : Channel) (caller : ModuleId) : Bool :=
  if ch.isSink then true else caller == ch.owner

/-- `Event`: one emission instance.  A root event has a null parent and
depth 0; a chained event holds its parent and the emitting module/channel
(nl_modflow.h, class `Event`, both constructors). -/
inductive Event where
  | root (module : ModuleId) (channel : ChannelId)
  | child (parent : Event) (module : ModuleId) (channel : ChannelId)
  deriving DecidableEq

namespace Event

/-- `Event::depth`: 0 for a root, `parent->depth() + 1` for a chained event. -/
def depth : Event → Nat
  | .root _ _ => 0
  | .child p _ _ => p.depth + 1

/-- The `_parent` pointer: `none` models the null parent of a root event. -/
def parentLink : Event → Option Event
  | .root _ _ => none
  | .child p _ _ => some p

/-- The `_module` field of the event. -/
def emitter : Event → ModuleId
  | .root m _ => m
  | .child _ m _ => m

/-- `Event::moduleInAncestors`: walk the parent chain comparing
`_module->name()` with the query; the names of the modules are read through
the module table `names`. -/
def moduleInAncestors (names : List String) (nm : String) : Event → Bool
  | .root m _ => names.getD m "" == nm
  | .child p m _ => names.getD m "" == nm || p.moduleInAncestors names nm

/-- `Event::channelInAncestors`: same walk on the `_channel->name()` field,
with channel names read through the channel table `cnames`. -/
def channelInAncestors (cnames : List String) (nm : String) : Event → Bool
  | .root _ c => cnames.getD c "" == nm
  | .child p _ c => cnames.getD c "" == nm || p.channelInAncestors cnames nm

/-- `Event::branch`: builds `make_shared<Event>(_parent, module, channel)` —
the new event's parent is the receiver's *parent*, not the receiver.  When the
receiver is a root its `_parent` is null and the chained constructor
dereferences it (`parent->depth()`), which has no defined result: modelled as
`none`. -/
def branch (e : Event) (m : ModuleId) (c : ChannelId) : Option Event :=
  match e with
  | .root _ _ => none
  | .child p _ _ => some (.child p m c)

end Event

/-- What a connected handler does when invoked: return a value (possibly
nothing, for void handlers) and/or emit further events.  This is the body of
the module method bound by `NlModule::requestConnection`. -/
inductive HandlerBody where
  | ret (r : Option Val)
  | emitThen (ch : Channel) (args : List Val) (rest : HandlerBody)
  deriving DecidableEq

/-- The three kinds of callables wrapped into a `SerializedSlot`:
the member-slot wrapper built by `NlModule::requestConnection` (records the
event into `_lastEvent`, then runs the handler only if the module is
enabled), the internal enabling slot built by
`NlModule::requestEnablingChannel`, and the parent-callback forwarder built
by `NlSinks::declareSink`. -/
inductive SlotBehavior where
  | moduleWrapper (m : ModuleId) (body : HandlerBody)
  | enabling (m : ModuleId) (chId : ChannelId)
  | sinkForward (parentName : String)
  deriving DecidableEq

/-- `SerializedSlot`: debug name plus the erased callable. -/
structure SerializedSlot where
  name : String
  behavior : SlotBehavior
  deriving DecidableEq

/-- Per-module mutable state: `_lastEvent` and the `_disablingChannels` set
(kept duplicate-free, as `std::set` is). -/
structure ModuleSt where
  lastEvent : Option Event
  disablingChannels : List ChannelId
  deriving DecidableEq

instance : Inhabited ModuleSt := ⟨⟨none, []⟩⟩

/-- `NlModule::isEnabled`: true iff the pending set is empty. -/
def ModuleSt.isEnabled (ms : ModuleSt) : Bool :=
  ms.disablingChannels.isEmpty

/-- `NlModule::setEnabled`: erase the id from the pending set; erasing an
absent id is a no-op ("If already erased simply ignore"). -/
def ModuleSt.setEnabled (ms : ModuleSt) (c : ChannelId) : ModuleSt :=
  { ms with disablingChannels := ms.disablingChannels.erase c }

/-- `std::set::insert`: adds the id only if not already present. -/
def ModuleSt.addDisabling (ms : ModuleSt) (c : ChannelId) : ModuleSt :=
  { ms with disablingChannels :=
      if c ∈ ms.disablingChannels then ms.disablingChannels
      else ms.disablingChannels ++ [c] }

/-- Faults: the `assert`-class configuration and runtime errors, which abort
the process in the source; `outOfFuel` marks an exhausted recursion budget of
the interpreter (never a behaviour of the program). -/
inductive Fault where
  | typeMismatch
  | ownership
  | multiConnNonVoid
  | nameConflict
  | unresolvedChannel
  | outOfFuel
  deriving DecidableEq

instance {ε α : Type _} [DecidableEq ε] [DecidableEq α] : DecidableEq (Except ε α) := fun a b =>
  match a, b with
  | .error x, .error y =>
      if h : x = y then .isTrue (by rw [h]) else .isFalse (fun hc => h (Except.error.inj hc))
  | .error _, .ok _ => .isFalse (fun hc => Except.noConfusion hc)
  | .ok _, .error _ => .isFalse (fun hc => Except.noConfusion hc)
  | .ok x, .ok y =>
      if h : x = y then .isTrue (by rw [h]) else .isFalse (fun hc => h (Except.ok.inj hc))

/-- `NlModFlow` state: channel-id sequence, name→Channel map, per-channel
connection lists indexed by channel id, per-module state indexed by module
id, the module name table, plus observation logs (calls received by parent
sink callbacks, and the order in which slots are invoked). -/
structure Flow where
  channelsSeq : Nat
  channelNames : List (String × Channel)
  connections : List (List SerializedSlot)
  modules : List ModuleSt
  moduleNames : List String
  sinkLog : List (String × Event × List Val)
  callLog : List String
  deriving DecidableEq

namespace Flow

/-- `_connections[channel.id()]`. -/
def connectionsAt (st : Flow) (c : ChannelId) : List SerializedSlot :=
  st.connections.getD c []

/-- The state of module `m`. -/
def moduleAt (st : Flow) (m : ModuleId) : ModuleSt :=
  st.modules.getD m default

def setModule (st : Flow) (m : ModuleId) (ms : ModuleSt) : Flow :=
  { st with modules := st.modules.set m ms }

/-- `this->_lastEvent = event` in the bound slot lambdas. -/
def setLastEvent (st : Flow) (m : ModuleId) (ev : Event) : Flow :=
  st.setModule m { st.moduleAt m with lastEvent := some ev }

/-- `NlModFlow::createChannel`: allocate the next sequential id, fault on a
name collision, record the channel and append an empty connection list. -/
def createChannel (st : Flow) (name : String) (owner : ModuleId) (isSink : Bool)
    (types : List TypeTag) : Except Fault (Flow × Channel) :=
  let newChannel : Channel := ⟨st.channelsSeq, name, types, owner, isSink⟩
  if (st.channelNames.lookup name).isSome then
    .error .nameConflict
  else
    .ok ({ st with
            channelNames := st.channelNames ++ [(name, newChannel)],
            connections := st.connections ++ [[]],
            channelsSeq := st.channelsSeq + 1 }, newChannel)

/-- `NlModFlow::resolveChannel`: lookup by name, fault when absent. -/
def resolveChannel (st : Flow) (name : String) : Except Fault Channel :=
  match st.channelNames.lookup name with
  | some ch => .ok ch
  | none => .error .unresolvedChannel

/-- `NlModFlow::createConnection`: unconditionally append the serialized slot
to the channel's connection list.  No check of any kind is performed here. -/
def createConnection (st : Flow) (ch : Channel) (slot : SerializedSlot) : Flow :=
  { st with connections := st.connections.set ch.id (st.connectionsAt ch.id ++ [slot]) }

/-- `NlModule::requestConnection`: resolve the channel, fault on a
type-signature mismatch, then wrap the member slot and append it. -/
def requestConnection (st : Flow) (m : ModuleId) (channelName : String)
    (slotTypes : List TypeTag) (slotName : String) (body : HandlerBody) :
    Except Fault Flow :=
  match st.resolveChannel channelName with
  | .error f => .error f
  | .ok ch =>
      if ch.checkType slotTypes then
        .ok (st.createConnection ch ⟨slotName, .moduleWrapper m body⟩)
      else
        .error .typeMismatch

/-- `NlModule::requestEnablingChannel` (Channel overload): insert the id into
the module's pending set, then connect the internal enabling slot. -/
def requestEnablingChannel (st : Flow) (m : ModuleId) (ch : Channel) : Flow :=
  let st₁ := st.setModule m ((st.moduleAt m).addDisabling ch.id)
  st₁.createConnection ch ⟨"<enabling " ++ ch.name ++ "> [" ++ toString m ++ "]", .enabling m ch.id⟩

/-- The event construction of `NlModFlow::prepareEmit`: a fresh root event if
the caller has no last event (the source-call case), a child of the caller's
last event otherwise. -/
def mkEmitEvent (st : Flow) (caller : ModuleId) (ch : Channel) : Event :=
  match (st.moduleAt caller).lastEvent with
  | none => .root caller ch.id
  | some e => .child e caller ch.id

/-- `NlModFlow::prepareEmit`: the type check, then the ownership check (each
an aborting assert on failure), then the event construction. -/
def prepareEmit (st : Flow) (ch : Channel) (caller : ModuleId)
    (argTypes : List TypeTag) : Except Fault Event :=
  if ¬ ch.checkType argTypes then .error .typeMismatch
  else if ¬ ch.checkOwnership caller then .error .ownership
  else .ok (st.mkEmitEvent caller ch)

end Flow

/-- The interpreter's pending work: a void emit (`NlModFlow::emit`, void
overload), iterating a connection list, invoking one serialized slot, or
running a handler body inside a module. -/
inductive Cmd where
  | emitVoid (ch : Channel) (caller : ModuleId) (args : List Val)
  | runSlots (ev : Event) (args : List Val) (slots : List SerializedSlot)
  | runSlot (ev : Event) (args : List Val) (slot : SerializedSlot)
  | runBody (m : ModuleId) (body : HandlerBody)
  deriving DecidableEq

/-- Single-threaded re-entrant dispatch, with fuel bounding the nested-call
depth.  `emitVoid` mirrors the void `NlModFlow::emit`: `prepareEmit`, then
each connected slot in registration order.  `runSlot` mirrors the three
bound lambdas: the member-slot wrapper stores `_lastEvent` and calls the
handler only when the module is enabled (silent drop otherwise); the
enabling slot stores `_lastEvent` and erases its id from the pending set;
the sink forwarder calls the parent callback.  The returned `Option Val` is
the value produced by a handler body (`none` for void or skipped paths). -/
def exec : Nat → Flow → Cmd → Except Fault (Flow × Option Val)
  | 0, _, _ => .error .outOfFuel
  | fuel + 1, st, .emitVoid ch caller args =>
      match st.prepareEmit ch caller (args.map Val.tag) with
      | .error f => .error f
      | .ok ev => exec fuel st (.runSlots ev args (st.connectionsAt ch.id))
  | _ + 1, st, .runSlots _ _ [] => .ok (st, none)
  | fuel + 1, st, .runSlots ev args (s :: rest) =>
      match exec fuel st (.runSlot ev args s) with
      | .error f => .error f
      | .ok (st', _) => exec fuel st' (.runSlots ev args rest)
  | fuel + 1, st, .runSlot ev args slot =>
      let stT : Flow := { st with callLog := st.callLog ++ [slot.name] }
      match slot.behavior with
      | .moduleWrapper m body =>
          let st' := stT.setLastEvent m ev
          if (st'.moduleAt m).isEnabled then exec fuel st' (.runBody m body)
          else .ok (st', none)
      | .enabling m chId =>
          let st₁ := stT.setLastEvent m ev
          .ok (st₁.setModule m ((st₁.moduleAt m).setEnabled chId), none)
      | .sinkForward pname =>
          .ok ({ stT with sinkLog := stT.sinkLog ++ [(pname, ev, args)] }, none)
  | _ + 1, st, .runBody _ (.ret r) => .ok (st, r)
  | fuel + 1, st, .runBody m (.emitThen ch args rest) =>
      match exec fuel st (.emitVoid ch m args) with
      | .error f => .error f
      | .ok (st', _) => exec fuel st' (.runBody m rest)

/-- The non-void `NlModFlow::emit` (the `callService` path): `prepareEmit`,
then the assert that the channel has exactly one connection, then the
invocation of that single slot, whose produced value is returned. -/
def emitService (fuel : Nat) (st : Flow) (ch : Channel) (caller : ModuleId)
    (args : List Val) : Except Fault (Flow × Option Val) :=
  match st.prepareEmit ch caller (args.map Val.tag) with
  | .error f => .error f
  | .ok ev =>
      match st.connectionsAt ch.id with
      | [slot] => exec fuel st (.runSlot ev args slot)
      | _ => .error .multiConnNonVoid

/-- `NlSources::callSource` / the name-resolving `emit` overload: resolve the
channel by name, then emit. -/
def emitVoidNamed (fuel : Nat) (st : Flow) (channelName : String)
    (caller : ModuleId) (args : List Val) : Except Fault (Flow × Option Val) :=
  match st.resolveChannel channelName with
  | .error f => .error f
  | .ok ch => exec fuel st (.emitVoid ch caller args)

/-- The two virtual hooks `NlModFlow::finalize` calls on each module. -/
inductive StepKind where
  | initParams
  | setupNetwork
  deriving DecidableEq

/-- `NlModFlow::finalize`: for each loaded module, in order, call
`initParams` then `setupNetwork`.  The result is the sequence of hook
invocations. -/
def finalizeTrace (mods : List String) : List (String × StepKind) :=
  match mods with
  | [] => []
  | m :: rest => (m, .initParams) :: (m, .setupNetwork) :: finalizeTrace rest

/-- `NlModFlow::init`: loads `sources`, then `sinks`, then the user modules
enumerated by the overridden `loadModules`, so this is the content of
`_modules` in load order. -/
def initLoadOrder (userModules : List String) : List String :=
  "sources" :: "sinks" :: userModules

/-- Whether a serialized slot's invocation triggers no further emission
(its handler body, if any, is a plain return). -/
def SlotBehavior.isLeaf : SlotBehavior → Bool
  | .moduleWrapper _ (.ret _) => true
  | .moduleWrapper _ (.emitThen _ _ _) => false
  | .enabling _ _ => true
  | .sinkForward _ => true

/-! ### Concrete scenarios

A four-module world (`Source`, `M1`, `M2`, `sinks` at indices 0..3) used by
the counterexamples and witnesses. -/

/-- Empty flow with the four modules of the chain scenario. -/
def chainSt0 : Flow :=
  { channelsSeq := 0, channelNames := [], connections := [],
    modules := [⟨none, []⟩, ⟨none, []⟩, ⟨none, []⟩, ⟨none, []⟩],
    moduleNames := ["Source", "M1", "M2", "sinks"],
    sinkLog := [], callLog := [] }

/-- Wiring of the Source→M1→M2→Sink chain: a source channel `src`, M1's
channel `m1_out`, a sink channel `str_out` bound to a parent callback;
M1 handles `src` by emitting on `m1_out`, M2 handles `m1_out` by emitting on
the sink channel. -/
def chainSetup : Except Fault Flow := do
  let (st₁, _chSrc) ← chainSt0.createChannel "src" 0 false [.tint]
  let (st₂, chM1) ← st₁.createChannel "m1_out" 1 false [.tint]
  let (st₃, chSink) ← st₂.createChannel "str_out" 3 true [.tint]
  let st₄ := st₃.createConnection chSink ⟨"Parent::onStr", .sinkForward "Parent::onStr"⟩
  let st₅ ← st₄.requestConnection 1 "src" [.tint] "M1::onSrc"
      (.emitThen chM1 [.vint 5] (.ret none))
  let st₆ ← st₅.requestConnection 2 "m1_out" [.tint] "M2::onM1"
      (.emitThen chSink [.vint 5] (.ret none))
  pure st₆

/-- `callSource ("src", 5)` on the wired chain. -/
def chainRun : Except Fault (Flow × Option Val) :=
  match chainSetup with
  | .error f => .error f
  | .ok st => emitVoidNamed 20 st "src" 0 [.vint 5]

/-- The event delivered to the sink's parent callback in the chain run. -/
def chainEvent : Event :=
  .child (.child (.root 0 0) 1 1) 2 2

/-- A one-module world whose module 0 has pending enabling channel 0. -/
def gateSt : Flow :=
  { channelsSeq := 1, channelNames := [("ready", ⟨0, "ready", [.tint], 0, false⟩)],
    connections := [[]],
    modules := [⟨none, [0]⟩],
    moduleNames := ["gm"],
    sinkLog := [], callLog := [] }

/-- A one-module world with a non-void service channel `svc` (id 0) owned by
module 0, with a single connected handler returning 7. -/
def svcCh : Channel := ⟨0, "svc", [.tint], 0, false⟩

def svcSt : Flow :=
  { channelsSeq := 1, channelNames := [("svc", svcCh)],
    connections := [[⟨"M::h1", .moduleWrapper 0 (.ret (some (.vint 7)))⟩]],
    modules := [⟨none, []⟩],
    moduleNames := ["M"],
    sinkLog := [], callLog := [] }

/-- The second slot of the C1 counterexample. -/
def svcSlot2 : SerializedSlot := ⟨"M::h2", .moduleWrapper 0 (.ret (some (.vint 9)))⟩

/-- Like `svcSt`, but module 0 is gated: pending enabling channel 5. -/
def svcGateSt : Flow :=
  { channelsSeq := 1, channelNames := [("svc", svcCh)],
    connections := [[⟨"M::h1", .moduleWrapper 0 (.ret (some (.vint 7)))⟩]],
    modules := [⟨none, [5]⟩],
    moduleNames := ["M"],
    sinkLog := [], callLog := [] }

/-! ### Helper lemmas -/

theorem listGetD_set_self {α : Type _} (l : List α) (i : Nat) (x d : α)
    (h : i < l.length) : (l.set i x).getD i d = x := by
  induction l generalizing i with
  | nil => simp at h
  | cons a t ih =>
      cases i with
      | zero => rfl
      | succ n =>
          simp only [List.set, List.getD_cons_succ]
          exact ih n (by simpa using h)

theorem listGetD_set_ne {α : Type _} (l : List α) (i j : Nat) (x d : α)
    (h : i ≠ j) : (l.set i x).getD j d = l.getD j d := by
  induction l generalizing i j with
  | nil => simp [List.set]
  | cons a t ih =>
      cases i with
      | zero =>
          cases j with
          | zero => exact absurd rfl h
          | succ m => rfl
      | succ n =>
          cases j with
          | zero => rfl
          | succ m =>
              simp only [List.set, List.getD_cons_succ]
              exact ih n m (by omega)

theorem listSet_oob {α : Type _} (l : List α) (i : Nat) (x : α)
    (h : l.length ≤ i) : l.set i x = l := by
  induction l generalizing i with
  | nil => rfl
  | cons a t ih =>
      cases i with
      | zero => simp at h
      | succ n => simp only [List.set]; rw [ih n (by simpa using h)]

@[simp] theorem setModule_connections (st : Flow) (m : ModuleId) (ms : ModuleSt) :
    (st.setModule m ms).connections = st.connections := rfl

@[simp] theorem setModule_channelNames (st : Flow) (m : ModuleId) (ms : ModuleSt) :
    (st.setModule m ms).channelNames = st.channelNames := rfl

@[simp] theorem setModule_moduleNames (st : Flow) (m : ModuleId) (ms : ModuleSt) :
    (st.setModule m ms).moduleNames = st.moduleNames := rfl

@[simp] theorem setModule_sinkLog (st : Flow) (m : ModuleId) (ms : ModuleSt) :
    (st.setModule m ms).sinkLog = st.sinkLog := rfl

@[simp] theorem setModule_callLog (st : Flow) (m : ModuleId) (ms : ModuleSt) :
    (st.setModule m ms).callLog = st.callLog := rfl

@[simp] theorem setModule_modules_length (st : Flow) (m : ModuleId) (ms : ModuleSt) :
    (st.setModule m ms).modules.length = st.modules.length := by
  simp [Flow.setModule]

theorem moduleAt_setModule_self (st : Flow) (m : ModuleId) (ms : ModuleSt)
    (h : m < st.modules.length) : (st.setModule m ms).moduleAt m = ms :=
  listGetD_set_self st.modules m ms default h

theorem moduleAt_setModule_ne (st : Flow) (m m' : ModuleId) (ms : ModuleSt)
    (h : m ≠ m') : (st.setModule m ms).moduleAt m' = st.moduleAt m' :=
  listGetD_set_ne st.modules m m' ms default h

theorem setModule_oob (st : Flow) (m : ModuleId) (ms : ModuleSt)
    (h : st.modules.length ≤ m) : st.setModule m ms = st := by
  simp only [Flow.setModule, listSet_oob st.modules m ms h]

theorem moduleAt_setLastEvent_self (st : Flow) (m : ModuleId) (ev : Event)
    (h : m < st.modules.length) :
    (st.setLastEvent m ev).moduleAt m = { st.moduleAt m with lastEvent := some ev } := by
  simp only [Flow.setLastEvent]
  exact moduleAt_setModule_self st m _ h

theorem moduleAt_setLastEvent_disabling (st : Flow) (m : ModuleId) (ev : Event) :
    ((st.setLastEvent m ev).moduleAt m).disablingChannels
      = (st.moduleAt m).disablingChannels := by
  rcases Nat.lt_or_ge m st.modules.length with h | h
  · rw [moduleAt_setLastEvent_self st m ev h]
  · simp only [Flow.setLastEvent, setModule_oob _ _ _ h]

theorem isEnabled_iff (ms : ModuleSt) : ms.isEnabled = true ↔ ms.disablingChannels = [] := by
  cases h : ms.disablingChannels <;> simp [ModuleSt.isEnabled, h]

@[simp] theorem createConnection_modules (st : Flow) (ch : Channel) (s : SerializedSlot) :
    (st.createConnection ch s).modules = st.modules := rfl

@[simp] theorem createConnection_channelNames (st : Flow) (ch : Channel) (s : SerializedSlot) :
    (st.createConnection ch s).channelNames = st.channelNames := rfl

@[simp] theorem createConnection_connections_length (st : Flow) (ch : Channel)
    (s : SerializedSlot) :
    (st.createConnection ch s).connections.length = st.connections.length := by
  simp [Flow.createConnection]

theorem connectionsAt_createConnection_self (st : Flow) (ch : Channel) (s : SerializedSlot)
    (h : ch.id < st.connections.length) :
    (st.createConnection ch s).connectionsAt ch.id = st.connectionsAt ch.id ++ [s] := by
  simp only [Flow.createConnection, Flow.connectionsAt]
  exact listGetD_set_self _ _ _ _ h

theorem connectionsAt_createConnection_ne (st : Flow) (ch : Channel) (s : SerializedSlot)
    (c : ChannelId) (h : c ≠ ch.id) :
    (st.createConnection ch s).connectionsAt c = st.connectionsAt c := by
  simp only [Flow.createConnection, Flow.connectionsAt]
  exact listGetD_set_ne _ _ _ _ _ (Ne.symm h)

theorem connectionsAt_register_list (slots : List SerializedSlot) :
    ∀ (st : Flow) (ch : Channel), ch.id < st.connections.length →
      (slots.foldl (fun acc sl => acc.createConnection ch sl) st).connectionsAt ch.id
        = st.connectionsAt ch.id ++ slots := by
  induction slots with
  | nil => intro st ch _; simp
  | cons s rest ih =>
      intro st ch h
      simp only [List.foldl_cons]
      rw [ih (st.createConnection ch s) ch (by simpa using h),
        connectionsAt_createConnection_self st ch s h]
      simp

theorem exec_runSlot_leaf (fuel : Nat) (st : Flow) (ev : Event) (args : List Val)
    (s : SerializedSlot) (h : s.behavior.isLeaf = true) :
    ∃ st' v, exec (fuel + 2) st (.runSlot ev args s) = .ok (st', v) ∧
      st'.callLog = st.callLog ++ [s.name] ∧
      st'.connections = st.connections ∧
      st'.channelNames = st.channelNames ∧
      st'.moduleNames = st.moduleNames ∧
      st'.modules.length = st.modules.length := by
  obtain ⟨nm, b⟩ := s
  rw [show fuel + 2 = (fuel + 1) + 1 from rfl]
  cases b with
  | moduleWrapper m body =>
      cases body with
      | emitThen ch args2 rest => simp [SlotBehavior.isLeaf] at h
      | ret r =>
          simp only [exec]
          by_cases hc :
              ((({ st with callLog := st.callLog ++ [nm] } : Flow).setLastEvent m ev).moduleAt m).isEnabled = true
          · rw [if_pos hc]
            refine ⟨({ st with callLog := st.callLog ++ [nm] } : Flow).setLastEvent m ev,
              r, ?_, ?_, ?_, ?_, ?_, ?_⟩ <;>
              simp [exec, Flow.setLastEvent]
          · rw [if_neg hc]
            refine ⟨_, none, rfl, ?_, ?_, ?_, ?_, ?_⟩ <;>
              simp [Flow.setLastEvent]
  | enabling m c =>
      simp only [exec]
      refine ⟨_, none, rfl, ?_, ?_, ?_, ?_, ?_⟩ <;>
        simp [Flow.setLastEvent]
  | sinkForward p =>
      simp only [exec]
      refine ⟨_, none, rfl, ?_, ?_, ?_, ?_, ?_⟩ <;>
        simp [Flow.setLastEvent]

theorem exec_runSlots_leaf (slots : List SerializedSlot) :
    ∀ (fuel : Nat) (st : Flow) (ev : Event) (args : List Val),
      (∀ s ∈ slots, s.behavior.isLeaf = true) →
      ∃ st', exec (fuel + slots.length + 2) st (.runSlots ev args slots) = .ok (st', none) ∧
        st'.callLog = st.callLog ++ slots.map SerializedSlot.name ∧
        st'.connections = st.connections ∧
        st'.channelNames = st.channelNames ∧
        st'.moduleNames = st.moduleNames ∧
        st'.modules.length = st.modules.length := by
  induction slots with
  | nil =>
      intro fuel st ev args _
      refine ⟨st, ?_, by simp, rfl, rfl, rfl, rfl⟩
      rw [show fuel + [].length + 2 = (fuel + 1) + 1 from rfl]
      simp [exec]
  | cons s rest ih =>
      intro fuel st ev args hall
      have hs : s.behavior.isLeaf = true := hall s (by simp)
      have hrest : ∀ x ∈ rest, x.behavior.isLeaf = true := fun x hx => hall x (by simp [hx])
      obtain ⟨st₁, v, h1, hcall, hconn, hch, hmn, hlen⟩ :=
        exec_runSlot_leaf (fuel + rest.length) st ev args s hs
      obtain ⟨st₂, h2, hcall2, hconn2, hch2, hmn2, hlen2⟩ := ih fuel st₁ ev args hrest
      refine ⟨st₂, ?_, ?_, hconn2.trans hconn, hch2.trans hch, hmn2.trans hmn,
        hlen2.trans hlen⟩
      · rw [show fuel + (s :: rest).length + 2 = (fuel + rest.length + 2) + 1 by
          simp [List.length_cons]; omega]
        have step : exec ((fuel + rest.length + 2) + 1) st (.runSlots ev args (s :: rest))
            = match exec (fuel + rest.length + 2) st (.runSlot ev args s) with
              | .error f => .error f
              | .ok (st', _) => exec (fuel + rest.length + 2) st' (.runSlots ev args rest) := rfl
        rw [step, h1]
        exact h2
      · rw [hcall2, hcall]; simp
theorem prepareEmit_ok (st : Flow) (ch : Channel) (caller : ModuleId)
    (argTypes : List TypeTag)
    (htype : ch.checkType argTypes = true)
    (hown : ch.checkOwnership caller = true) :
    st.prepareEmit ch caller argTypes = .ok (st.mkEmitEvent caller ch) := by
  simp [Flow.prepareEmit, htype, hown]

theorem exec_emitVoid_leaf (fuel : Nat) (st : Flow) (ch : Channel) (caller : ModuleId)
    (args : List Val)
    (htype : ch.checkType (args.map Val.tag) = true)
    (hown : ch.checkOwnership caller = true)
    (hleaf : ∀ s ∈ st.connectionsAt ch.id, s.behavior.isLeaf = true) :
    ∃ st', exec (fuel + (st.connectionsAt ch.id).length + 3) st (.emitVoid ch caller args)
        = .ok (st', none) ∧
      st'.callLog = st.callLog ++ (st.connectionsAt ch.id).map SerializedSlot.name ∧
      st'.connections = st.connections := by
  obtain ⟨st', h, hcall, hconn, _, _, _⟩ :=
    exec_runSlots_leaf (st.connectionsAt ch.id) fuel st (st.mkEmitEvent caller ch) args hleaf
  refine ⟨st', ?_, hcall, hconn⟩
  have step : exec ((fuel + (st.connectionsAt ch.id).length + 2) + 1) st (.emitVoid ch caller args)
      = match st.prepareEmit ch caller (args.map Val.tag) with
        | .error f => .error f
        | .ok ev => exec (fuel + (st.connectionsAt ch.id).length + 2) st
            (.runSlots ev args (st.connectionsAt ch.id)) := rfl
  rw [show fuel + (st.connectionsAt ch.id).length + 3
      = (fuel + (st.connectionsAt ch.id).length + 2) + 1 from rfl]
  rw [step, prepareEmit_ok st ch caller (args.map Val.tag) htype hown]
  exact h

theorem exec_preserves_connections :
    ∀ (fuel : Nat) (st : Flow) (cmd : Cmd) (st' : Flow) (v : Option Val),
      exec fuel st cmd = .ok (st', v) → st'.connections = st.connections := by
  intro fuel
  induction fuel with
  | zero => intro st cmd st' v h; exact Except.noConfusion h
  | succ fuel ih =>
      intro st cmd st' v h
      cases cmd with
      | emitVoid ch caller args =>
          have step : exec (fuel + 1) st (.emitVoid ch caller args)
              = match st.prepareEmit ch caller (args.map Val.tag) with
                | .error f => .error f
                | .ok ev => exec fuel st (.runSlots ev args (st.connectionsAt ch.id)) := rfl
          rw [step] at h
          cases hp : st.prepareEmit ch caller (args.map Val.tag) with
          | error f => rw [hp] at h; exact Except.noConfusion h
          | ok ev => rw [hp] at h; exact ih st _ st' v h
      | runSlots ev args slots =>
          cases slots with
          | nil =>
              have step : exec (fuel + 1) st (.runSlots ev args [])
                  = .ok (st, none) := rfl
              rw [step] at h
              injection h with h'
              injection h' with h1 h2
              rw [← h1]
          | cons s rest =>
              have step : exec (fuel + 1) st (.runSlots ev args (s :: rest))
                  = match exec fuel st (.runSlot ev args s) with
                    | .error f => .error f
                    | .ok (st₁, _) => exec fuel st₁ (.runSlots ev args rest) := rfl
              rw [step] at h
              cases he : exec fuel st (.runSlot ev args s) with
              | error f => rw [he] at h; exact Except.noConfusion h
              | ok p =>
                  obtain ⟨st₁, v₁⟩ := p
                  rw [he] at h
                  exact (ih st₁ _ st' v h).trans (ih st _ st₁ v₁ he)
      | runSlot ev args slot =>
          obtain ⟨nm, b⟩ := slot
          cases b with
          | moduleWrapper m body =>
              have step : exec (fuel + 1) st (.runSlot ev args ⟨nm, .moduleWrapper m body⟩)
                  = (if ((({ st with callLog := st.callLog ++ [nm] } : Flow).setLastEvent m ev).moduleAt m).isEnabled
                     then exec fuel (({ st with callLog := st.callLog ++ [nm] } : Flow).setLastEvent m ev) (.runBody m body)
                     else .ok (({ st with callLog := st.callLog ++ [nm] } : Flow).setLastEvent m ev, none)) := rfl
              rw [step] at h
              by_cases hc : ((({ st with callLog := st.callLog ++ [nm] } : Flow).setLastEvent m ev).moduleAt m).isEnabled = true
              · rw [if_pos hc] at h
                exact (ih _ _ st' v h).trans (by simp [Flow.setLastEvent])
              · rw [if_neg hc] at h
                injection h with h'
                injection h' with h1 h2
                rw [← h1]; simp [Flow.setLastEvent]
          | enabling m c =>
              have step : exec (fuel + 1) st (.runSlot ev args ⟨nm, .enabling m c⟩)
                  = .ok (((({ st with callLog := st.callLog ++ [nm] } : Flow).setLastEvent m ev)).setModule m
                      (((({ st with callLog := st.callLog ++ [nm] } : Flow).setLastEvent m ev)).moduleAt m |>.setEnabled c), none) := rfl
              rw [step] at h
              injection h with h'
              injection h' with h1 h2
              rw [← h1]; simp [Flow.setLastEvent]
          | sinkForward p =>
              have step : exec (fuel + 1) st (.runSlot ev args ⟨nm, .sinkForward p⟩)
                  = .ok ({ ({ st with callLog := st.callLog ++ [nm] } : Flow) with
                      sinkLog := ({ st with callLog := st.callLog ++ [nm] } : Flow).sinkLog ++ [(p, ev, args)] }, none) := rfl
              rw [step] at h
              injection h with h'
              injection h' with h1 h2
              rw [← h1]
      | runBody m body =>
          cases body with
          | ret r =>
              have step : exec (fuel + 1) st (.runBody m (.ret r)) = .ok (st, r) := rfl
              rw [step] at h
              injection h with h'
              injection h' with h1 h2
              rw [← h1]
          | emitThen ch args2 rest =>
              have step : exec (fuel + 1) st (.runBody m (.emitThen ch args2 rest))
                  = match exec fuel st (.emitVoid ch m args2) with
                    | .error f => .error f
                    | .ok (st₁, _) => exec fuel st₁ (.runBody m rest) := rfl
              rw [step] at h
              cases he : exec fuel st (.emitVoid ch m args2) with
              | error f => rw [he] at h; exact Except.noConfusion h
              | ok p =>
                  obtain ⟨st₁, v₁⟩ := p
                  rw [he] at h
                  exact (ih st₁ _ st' v h).trans (ih st _ st₁ v₁ he)

theorem finalizeTrace_length (mods : List String) :
    (finalizeTrace mods).length = 2 * mods.length := by
  induction mods with
  | nil => rfl
  | cons m rest ih => simp [finalizeTrace, ih]; omega

theorem finalizeTrace_get (mods : List String) :
    ∀ i, i < mods.length →
      (finalizeTrace mods).get? (2 * i) = some (mods.getD i "", .initParams) ∧
      (finalizeTrace mods).get? (2 * i + 1) = some (mods.getD i "", .setupNetwork) := by
  induction mods with
  | nil => intro i hi; simp at hi
  | cons m rest ih =>
      intro i hi
      cases i with
      | zero => exact ⟨rfl, rfl⟩
      | succ n =>
          have h2 : 2 * (n + 1) = 2 * n + 1 + 1 := by omega
          rw [h2]
          have hrec : finalizeTrace (m :: rest)
              = (m, .initParams) :: (m, .setupNetwork) :: finalizeTrace rest := rfl
          rw [hrec]
          simp only [List.get?_cons_succ, List.getD_cons_succ]
          exact ih n (by simpa using hi)

theorem exec_wrapper_disabled (fuel : Nat) (st : Flow) (ev : Event) (args : List Val)
    (m : ModuleId) (body : HandlerBody) (nm : String)
    (hdis : (st.moduleAt m).disablingChannels ≠ []) :
    exec (fuel + 1) st (.runSlot ev args ⟨nm, .moduleWrapper m body⟩)
      = .ok (({ st with callLog := st.callLog ++ [nm] } : Flow).setLastEvent m ev, none) := by
  have step : exec (fuel + 1) st (.runSlot ev args ⟨nm, .moduleWrapper m body⟩)
      = (if ((({ st with callLog := st.callLog ++ [nm] } : Flow).setLastEvent m ev).moduleAt m).isEnabled
         then exec fuel (({ st with callLog := st.callLog ++ [nm] } : Flow).setLastEvent m ev) (.runBody m body)
         else .ok (({ st with callLog := st.callLog ++ [nm] } : Flow).setLastEvent m ev, none)) := rfl
  have hdis' : ((({ st with callLog := st.callLog ++ [nm] } : Flow).setLastEvent m ev).moduleAt m).disablingChannels
      = (st.moduleAt m).disablingChannels :=
    moduleAt_setLastEvent_disabling _ m ev
  have hne : ¬ (((({ st with callLog := st.callLog ++ [nm] } : Flow).setLastEvent m ev).moduleAt m).isEnabled = true) := by
    intro hT
    exact hdis (hdis' ▸ (isEnabled_iff _).mp hT)
  rw [step, if_neg hne]

theorem exec_wrapper_enabled_ret (fuel : Nat) (st : Flow) (ev : Event) (args : List Val)
    (m : ModuleId) (r : Option Val) (nm : String)
    (hen : (st.moduleAt m).disablingChannels = []) :
    exec (fuel + 2) st (.runSlot ev args ⟨nm, .moduleWrapper m (.ret r)⟩)
      = .ok (({ st with callLog := st.callLog ++ [nm] } : Flow).setLastEvent m ev, r) := by
  have step : exec (fuel + 1 + 1) st (.runSlot ev args ⟨nm, .moduleWrapper m (.ret r)⟩)
      = (if ((({ st with callLog := st.callLog ++ [nm] } : Flow).setLastEvent m ev).moduleAt m).isEnabled
         then exec (fuel + 1) (({ st with callLog := st.callLog ++ [nm] } : Flow).setLastEvent m ev) (.runBody m (.ret r))
         else .ok (({ st with callLog := st.callLog ++ [nm] } : Flow).setLastEvent m ev, none)) := rfl
  have hen' : ((({ st with callLog := st.callLog ++ [nm] } : Flow).setLastEvent m ev).moduleAt m).isEnabled = true := by
    apply (isEnabled_iff _).mpr
    rw [moduleAt_setLastEvent_disabling _ m ev]
    exact hen
  rw [show fuel + 2 = fuel + 1 + 1 from rfl, step, if_pos hen']
  rfl

/-! ### Claims -/

/-- C10: for every event with a non-null parent, `Event::branch` builds the
new event as a child of the event's *parent*, not of the event itself, so
the result is a sibling whose depth equals the original event's depth; on a
root event (null parent) the chained constructor invoked by `branch`
dereferences the null parent while computing the new depth, so `branch` has
no defined result there. -/
theorem Event_branch_sibling_of_parent (e : Event) (m : ModuleId) (c : ChannelId) :
    (∀ p, e.parentLink = some p →
      e.branch m c = some (Event.child p m c) ∧ (Event.child p m c).depth = e.depth ∧
        (Event.child p m c).parentLink = e.parentLink) ∧
    (e.parentLink = none → e.branch m c = none) := by
  cases e with
  | root m₀ c₀ =>
      refine ⟨fun p hp => by simp [Event.parentLink] at hp, fun _ => rfl⟩
  | child p₀ m₀ c₀ =>
      refine ⟨fun p hp => ?_, fun h => by simp [Event.parentLink] at h⟩
      simp only [Event.parentLink, Option.some.injEq] at hp
      subst hp
      exact ⟨rfl, by simp [Event.depth], rfl⟩

/-- Witness for C10: `branch` at a concrete depth-1 event yields a sibling of
depth 1 hanging off the same parent. -/
theorem Event_branch_sibling_of_parent_w :
    (Event.child (Event.root 0 0) 1 1).branch 2 3
        = some (Event.child (Event.root 0 0) 2 3) ∧
      (Event.child (Event.root 0 0) 2 3).depth = (Event.child (Event.root 0 0) 1 1).depth ∧
      (Event.child (Event.root 0 0) 2 3).parentLink
        = (Event.child (Event.root 0 0) 1 1).parentLink :=
  (Event_branch_sibling_of_parent (Event.child (Event.root 0 0) 1 1) 2 3).1
    (Event.root 0 0) rfl

/-- C3 (amended): `finalize` invokes each loaded module's `initParams` and
then its `setupNetwork`, iterating the modules in load order, so the
initialization order is deterministic and equals load order; under the load
order produced by `init` (`sources`, `sinks`, then the user modules) the
sinks module's hooks run in second position — right after sources and before
every user module — not last. -/
theorem finalize_in_load_order (mods : List String) :
    ((finalizeTrace mods).length = 2 * mods.length)
    ∧ (∀ i, i < mods.length →
        (finalizeTrace mods).get? (2 * i) = some (mods.getD i "", .initParams) ∧
        (finalizeTrace mods).get? (2 * i + 1) = some (mods.getD i "", .setupNetwork))
    ∧ (∀ userModules : List String,
        initLoadOrder userModules = "sources" :: "sinks" :: userModules ∧
        (finalizeTrace (initLoadOrder userModules)).get? 2 = some ("sinks", .initParams) ∧
        (finalizeTrace (initLoadOrder userModules)).get? 3 = some ("sinks", .setupNetwork)) :=
  ⟨finalizeTrace_length mods, finalizeTrace_get mods,
    fun _ => ⟨rfl, rfl, rfl⟩⟩

/-- C3 counterexample: with one loaded user module "m1", the sinks module's
`setupNetwork` is the fourth of six finalize steps and the last step belongs
to "m1" — Sinks' network setup does not run last. -/
theorem finalize_sinks_setup_not_last :
    finalizeTrace (initLoadOrder ["m1"])
      = [("sources", .initParams), ("sources", .setupNetwork),
         ("sinks", .initParams), ("sinks", .setupNetwork),
         ("m1", .initParams), ("m1", .setupNetwork)]
    ∧ (finalizeTrace (initLoadOrder ["m1"])).getLast? = some ("m1", .setupNetwork)
    ∧ ("m1", StepKind.setupNetwork) ≠ ("sinks", StepKind.setupNetwork) :=
  ⟨rfl, rfl, by decide⟩

/-- C4 (amended): when its channel fires, the internal slot registered by
`requestEnablingChannel` has exactly two effects on the module: it removes
the channel id from the pending set and records the triggering event as the
module's last-seen event (`_lastEvent`); every other module's state, the
sink log, the connection table and the channel registry are unchanged. -/
theorem enabling_slot_full_effect (fuel : Nat) (st : Flow) (ev : Event)
    (args : List Val) (m : ModuleId) (c : ChannelId) (nm : String)
    (hm : m < st.modules.length) :
    ∃ st', exec (fuel + 1) st (.runSlot ev args ⟨nm, .enabling m c⟩) = .ok (st', none) ∧
      (st'.moduleAt m).disablingChannels = (st.moduleAt m).disablingChannels.erase c ∧
      (st'.moduleAt m).lastEvent = some ev ∧
      (∀ m', m' ≠ m → st'.moduleAt m' = st.moduleAt m') ∧
      st'.sinkLog = st.sinkLog ∧
      st'.connections = st.connections ∧
      st'.channelNames = st.channelNames ∧
      st'.callLog = st.callLog ++ [nm] := by
  have hm' : m < (({ st with callLog := st.callLog ++ [nm] } : Flow).setLastEvent m ev).modules.length := by
    simpa [Flow.setLastEvent] using hm
  have hmod : (({ st with callLog := st.callLog ++ [nm] } : Flow).setLastEvent m ev).moduleAt m
      = { st.moduleAt m with lastEvent := some ev } :=
    moduleAt_setLastEvent_self _ m ev hm
  refine ⟨_, rfl, ?_, ?_, ?_, ?_, ?_, ?_, ?_⟩
  · rw [moduleAt_setModule_self _ _ _ hm', hmod]
    rfl
  · rw [moduleAt_setModule_self _ _ _ hm', hmod]
    rfl
  · intro m' hne
    rw [moduleAt_setModule_ne _ _ _ _ (Ne.symm hne)]
    simp only [Flow.setLastEvent]
    rw [moduleAt_setModule_ne _ _ _ _ (Ne.symm hne)]
    rfl
  · simp [Flow.setLastEvent]
  · simp [Flow.setLastEvent]
  · simp [Flow.setLastEvent]
  · simp [Flow.setLastEvent]

/-- Witness for C4: firing the enabling slot of the concrete gated world
erases the pending id and records the event. -/
theorem enabling_slot_full_effect_w :
    ∃ st', exec (0 + 1) gateSt (.runSlot (.root 0 0) [] ⟨"en", .enabling 0 0⟩)
        = .ok (st', none) ∧
      (st'.moduleAt 0).disablingChannels = (gateSt.moduleAt 0).disablingChannels.erase 0 ∧
      (st'.moduleAt 0).lastEvent = some (.root 0 0) := by
  obtain ⟨st', h1, h2, h3, _⟩ :=
    enabling_slot_full_effect 0 gateSt (.root 0 0) [] 0 0 "en" (by decide)
  exact ⟨st', h1, h2, h3⟩

/-- C4 counterexample: the enabling slot is not limited to pending-set
removal — in the concrete gated world it also changes the module's last-seen
event from `none` to the triggering event. -/
theorem enabling_slot_changes_lastEvent :
    ((gateSt.moduleAt 0).lastEvent = none)
    ∧ ((exec 2 gateSt (.runSlot (.root 0 0) [] ⟨"en", .enabling 0 0⟩)).toOption.map
        (fun p => (p.1.moduleAt 0).lastEvent) = some (some (.root 0 0)))
    ∧ ((some (Event.root 0 0) : Option Event) ≠ none) :=
  ⟨rfl, rfl, by decide⟩

/-- C5: a module with pending enabling channels `{A, B}` is disabled until
both A and B have fired at least once, in either order (firing A twice
before B still unblocks after B's first firing); erasing an id from an
already-empty pending set is a no-op; while the pending set is non-empty
every member-slot wrapper silently drops dispatch — it returns `ok` while
recording the event and never running the handler — and once the pending set
is empty the wrapper runs the handler normally. -/
theorem enabling_gate (A B : ChannelId) (le : Option Event) (hAB : A ≠ B) :
    ((ModuleSt.mk le [A, B]).isEnabled = false)
    ∧ (((ModuleSt.mk le [A, B]).setEnabled A).isEnabled = false)
    ∧ (((ModuleSt.mk le [A, B]).setEnabled B).isEnabled = false)
    ∧ ((((ModuleSt.mk le [A, B]).setEnabled A).setEnabled B).isEnabled = true)
    ∧ ((((ModuleSt.mk le [A, B]).setEnabled B).setEnabled A).isEnabled = true)
    ∧ (((((ModuleSt.mk le [A, B]).setEnabled A).setEnabled A).setEnabled B).isEnabled = true)
    ∧ (∀ ms : ModuleSt, ms.disablingChannels = [] → ∀ d, ms.setEnabled d = ms)
    ∧ (∀ (fuel : Nat) (st : Flow) (ev : Event) (args : List Val) (m : ModuleId)
        (body : HandlerBody) (nm : String),
        (st.moduleAt m).disablingChannels ≠ [] →
        exec (fuel + 1) st (.runSlot ev args ⟨nm, .moduleWrapper m body⟩)
          = .ok (({ st with callLog := st.callLog ++ [nm] } : Flow).setLastEvent m ev, none))
    ∧ (∀ (fuel : Nat) (st : Flow) (ev : Event) (args : List Val) (m : ModuleId)
        (r : Option Val) (nm : String),
        (st.moduleAt m).disablingChannels = [] →
        exec (fuel + 2) st (.runSlot ev args ⟨nm, .moduleWrapper m (.ret r)⟩)
          = .ok (({ st with callLog := st.callLog ++ [nm] } : Flow).setLastEvent m ev, r)) := by
  have hABf : (A == B) = false := beq_eq_false_iff_ne.mpr hAB
  refine ⟨?_, ?_, ?_, ?_, ?_, ?_, ?_, ?_, ?_⟩
  · rfl
  · simp [ModuleSt.setEnabled, ModuleSt.isEnabled, List.erase_cons, hABf]
  · simp [ModuleSt.setEnabled, ModuleSt.isEnabled, List.erase_cons, hABf]
  · simp [ModuleSt.setEnabled, ModuleSt.isEnabled, List.erase_cons, hABf]
  · simp [ModuleSt.setEnabled, ModuleSt.isEnabled, List.erase_cons, hABf]
  · simp only [ModuleSt.setEnabled, ModuleSt.isEnabled, List.erase_cons, hABf]
    simp [List.erase_cons, hABf]
    exact Decidable.em _
  · intro ms hms d
    cases ms
    simp only at hms
    simp [ModuleSt.setEnabled, hms]
  · intro fuel st ev args m body nm hdis
    exact exec_wrapper_disabled fuel st ev args m body nm hdis
  · intro fuel st ev args m r nm hen
    exact exec_wrapper_enabled_ret fuel st ev args m r nm hen

/-- Witness for C5: pending `{0, 1}` blocks until both fire; firing 0 then 1
enables the module. -/
theorem enabling_gate_w :
    ((ModuleSt.mk none [0, 1]).isEnabled = false)
    ∧ ((((ModuleSt.mk none [0, 1]).setEnabled 0).setEnabled 1).isEnabled = true) := by
  obtain ⟨h1, _, _, h4, _⟩ := enabling_gate 0 1 none (by decide)
  exact ⟨h1, h4⟩

/-- C6: for a non-sink channel owned by module M, an emit by M passes the
ownership check, while an emit attempt by any other module faults with the
ownership error — the error return carries no successor state, so no
connected slot runs; a sink channel's ownership check accepts any module. -/
theorem emit_ownership_enforcement (st : Flow) (ch : Channel)
    (caller other : ModuleId) (args : List Val) (fuel : Nat)
    (htype : ch.checkType (args.map Val.tag) = true) :
    (ch.isSink = false → caller = ch.owner →
        ch.checkOwnership caller = true ∧
        st.prepareEmit ch caller (args.map Val.tag) = .ok (st.mkEmitEvent caller ch))
    ∧ (ch.isSink = false → other ≠ ch.owner →
        ch.checkOwnership other = false ∧
        exec (fuel + 1) st (.emitVoid ch other args) = .error .ownership ∧
        emitService fuel st ch other args = .error .ownership)
    ∧ (ch.isSink = true → ch.checkOwnership other = true) := by
  refine ⟨?_, ?_, ?_⟩
  · intro hsink heq
    have hown : ch.checkOwnership caller = true := by
      simp [Channel.checkOwnership, hsink, heq]
    exact ⟨hown, prepareEmit_ok st ch caller _ htype hown⟩
  · intro hsink hne
    have hown : ch.checkOwnership other = false := by
      simp only [Channel.checkOwnership, hsink, Bool.false_eq_true, if_false]
      exact beq_eq_false_iff_ne.mpr hne
    have hprep : st.prepareEmit ch other (args.map Val.tag) = .error .ownership := by
      simp [Flow.prepareEmit, htype, hown]
    refine ⟨hown, ?_, ?_⟩
    · have step : exec (fuel + 1) st (.emitVoid ch other args)
          = match st.prepareEmit ch other (args.map Val.tag) with
            | .error f => .error f
            | .ok ev => exec fuel st (.runSlots ev args (st.connectionsAt ch.id)) := rfl
      rw [step, hprep]
    · simp [emitService, hprep]
  · intro hsink
    simp [Channel.checkOwnership, hsink]

/-- Witness for C6: module 1 cannot emit on channel `svc`, owned by
module 0 — both emit paths fault with the ownership error. -/
theorem emit_ownership_enforcement_w :
    Channel.checkOwnership svcCh 1 = false ∧
    exec (0 + 1) svcSt (.emitVoid svcCh 1 [.vint 3]) = .error .ownership ∧
    emitService 0 svcSt svcCh 1 [.vint 3] = .error .ownership := by
  obtain ⟨_, h2, _⟩ := emit_ownership_enforcement svcSt svcCh 0 1 [.vint 3] 0 (by decide)
  exact h2 rfl (by decide)

/-- C7: emitting with exactly the channel's type signature passes the type
check (and the emit completes for non-re-emitting slots, given fuel); any
other type list faults with the type-mismatch error on both emit paths —
the error return carries no successor state, so no slot is invoked. -/
theorem emit_type_enforcement (st : Flow) (ch : Channel) (caller : ModuleId)
    (args : List Val) (fuel : Nat)
    (hown : ch.checkOwnership caller = true) :
    (args.map Val.tag ≠ ch.types →
        ch.checkType (args.map Val.tag) = false ∧
        exec (fuel + 1) st (.emitVoid ch caller args) = .error .typeMismatch ∧
        emitService fuel st ch caller args = .error .typeMismatch)
    ∧ (args.map Val.tag = ch.types →
        ch.checkType (args.map Val.tag) = true ∧
        ((∀ sl ∈ st.connectionsAt ch.id, sl.behavior.isLeaf = true) →
          ∃ st', exec (fuel + (st.connectionsAt ch.id).length + 3) st (.emitVoid ch caller args)
              = .ok (st', none))) := by
  refine ⟨?_, ?_⟩
  · intro hne
    have hct : ch.checkType (args.map Val.tag) = false := by
      simp only [Channel.checkType]
      exact beq_eq_false_iff_ne.mpr hne
    have hprep : st.prepareEmit ch caller (args.map Val.tag) = .error .typeMismatch := by
      simp [Flow.prepareEmit, hct]
    refine ⟨hct, ?_, ?_⟩
    · have step : exec (fuel + 1) st (.emitVoid ch caller args)
          = match st.prepareEmit ch caller (args.map Val.tag) with
            | .error f => .error f
            | .ok ev => exec fuel st (.runSlots ev args (st.connectionsAt ch.id)) := rfl
      rw [step, hprep]
    · simp [emitService, hprep]
  · intro heq
    have hct : ch.checkType (args.map Val.tag) = true := by
      simp [Channel.checkType, heq]
    refine ⟨hct, fun hleaf => ?_⟩
    obtain ⟨st', h, _, _⟩ := exec_emitVoid_leaf fuel st ch caller args hct hown hleaf
    exact ⟨st', h⟩

/-- Witness for C7: emitting a string on the int channel `svc` faults with
the type-mismatch error on both emit paths. -/
theorem emit_type_enforcement_w :
    Channel.checkType svcCh ([Val.vstr "x"].map Val.tag) = false ∧
    exec (0 + 1) svcSt (.emitVoid svcCh 0 [.vstr "x"]) = .error .typeMismatch ∧
    emitService 0 svcSt svcCh 0 [.vstr "x"] = .error .typeMismatch := by
  obtain ⟨h1, _⟩ := emit_type_enforcement svcSt svcCh 0 [.vstr "x"] 0 (by decide)
  exact h1 (by decide)

/-- C8: `createConnection` appends the new slot at the end of exactly the
target channel's connection list (registration order preserved, no
reordering, no deduplication, other channels untouched); registering a
sequence of slots yields exactly that sequence; an emit invokes the
connected slots in exactly list order (shown by the invocation log); and no
dispatch ever mutates the connection table, so the order is identical on
every call. -/
theorem connection_registration_order (st : Flow) (ch : Channel) (s : SerializedSlot)
    (caller : ModuleId) (args : List Val) (fuel : Nat)
    (hid : ch.id < st.connections.length)
    (htype : ch.checkType (args.map Val.tag) = true)
    (hown : ch.checkOwnership caller = true) :
    ((st.createConnection ch s).connectionsAt ch.id = st.connectionsAt ch.id ++ [s])
    ∧ (∀ c, c ≠ ch.id → (st.createConnection ch s).connectionsAt c = st.connectionsAt c)
    ∧ (∀ slots : List SerializedSlot,
        (slots.foldl (fun acc sl => acc.createConnection ch sl) st).connectionsAt ch.id
          = st.connectionsAt ch.id ++ slots)
    ∧ ((∀ sl ∈ st.connectionsAt ch.id, sl.behavior.isLeaf = true) →
        ∃ st', exec (fuel + (st.connectionsAt ch.id).length + 3) st (.emitVoid ch caller args)
            = .ok (st', none)
          ∧ st'.callLog = st.callLog ++ (st.connectionsAt ch.id).map SerializedSlot.name
          ∧ st'.connectionsAt ch.id = st.connectionsAt ch.id)
    ∧ (∀ (f : Nat) (cmd : Cmd) (st' : Flow) (v : Option Val),
        exec f st cmd = .ok (st', v) → st'.connections = st.connections) := by
  refine ⟨connectionsAt_createConnection_self st ch s hid,
    fun c hc => connectionsAt_createConnection_ne st ch s c hc,
    fun slots => connectionsAt_register_list slots st ch hid,
    ?_, fun f cmd st' v h => exec_preserves_connections f st cmd st' v h⟩
  intro hleaf
  obtain ⟨st', h, hcall, hconn⟩ := exec_emitVoid_leaf fuel st ch caller args htype hown hleaf
  exact ⟨st', h, hcall, by simp only [Flow.connectionsAt, hconn]⟩

/-- Witness for C8: registering a second slot on the concrete channel `svc`
appends it after the first. -/
theorem connection_registration_order_w :
    (svcSt.createConnection svcCh svcSlot2).connectionsAt svcCh.id
      = svcSt.connectionsAt svcCh.id ++ [svcSlot2] :=
  (connection_registration_order svcSt svcCh svcSlot2 0 [.vint 1] 0
    (by decide) (by decide) (by decide)).1

/-- C9: a non-void (`callService`) emit on a channel whose single connected
slot belongs to a gated module (non-empty pending set) completes without
error: the wrapper records the event into the module's `_lastEvent` and
skips the handler, and the produced value is `none` — the caller of the
value-returning emit receives no well-defined result, so the soft gate drop
is only well-defined for void channels. -/
theorem service_disabled_no_result (fuel : Nat) (st : Flow) (ch : Channel)
    (caller : ModuleId) (args : List Val) (nm : String) (m : ModuleId)
    (body : HandlerBody)
    (htype : ch.checkType (args.map Val.tag) = true)
    (hown : ch.checkOwnership caller = true)
    (hconn : st.connectionsAt ch.id = [⟨nm, .moduleWrapper m body⟩])
    (hdis : (st.moduleAt m).disablingChannels ≠ []) :
    emitService (fuel + 1) st ch caller args
      = .ok (({ st with callLog := st.callLog ++ [nm] } : Flow).setLastEvent m
          (st.mkEmitEvent caller ch), none) := by
  have hprep := prepareEmit_ok st ch caller (args.map Val.tag) htype hown
  have step : emitService (fuel + 1) st ch caller args
      = match st.prepareEmit ch caller (args.map Val.tag) with
        | .error f => .error f
        | .ok ev =>
            match st.connectionsAt ch.id with
            | [slot] => exec (fuel + 1) st (.runSlot ev args slot)
            | _ => .error .multiConnNonVoid := rfl
  rw [step, hprep, hconn]
  exact exec_wrapper_disabled fuel st _ args m body nm hdis

/-- Witness for C9: on the gated concrete world, the service call on `svc`
returns `ok` with no value. -/
theorem service_disabled_no_result_w :
    emitService (0 + 1) svcGateSt svcCh 0 [.vint 1]
      = .ok (({ svcGateSt with callLog := svcGateSt.callLog ++ ["M::h1"] } : Flow).setLastEvent 0
          (svcGateSt.mkEmitEvent 0 svcCh), none) :=
  service_disabled_no_result 0 svcGateSt svcCh 0 [.vint 1] "M::h1" 0
    (.ret (some (.vint 7))) (by decide) (by decide) (by decide) (by decide)

/-- C1 (amended): a non-void channel with exactly one connected, enabled
slot returns that slot's result to the caller; but attaching a second slot
is NOT rejected at connection time — `createConnection` appends it
unconditionally — and the single-connection requirement for non-void
channels is enforced only at emit time, where the non-void emit faults with
`multiConnNonVoid`. -/
theorem service_single_connection_return (fuel : Nat) (st : Flow) (ch : Channel)
    (caller : ModuleId) (args : List Val) (nm : String) (m : ModuleId) (v : Val)
    (htype : ch.checkType (args.map Val.tag) = true)
    (hown : ch.checkOwnership caller = true)
    (hconn : st.connectionsAt ch.id = [⟨nm, .moduleWrapper m (.ret (some v))⟩])
    (hen : (st.moduleAt m).disablingChannels = [])
    (hid : ch.id < st.connections.length) :
    (emitService (fuel + 2) st ch caller args
        = .ok (({ st with callLog := st.callLog ++ [nm] } : Flow).setLastEvent m
            (st.mkEmitEvent caller ch), some v))
    ∧ (∀ s₂ : SerializedSlot, (st.createConnection ch s₂).connectionsAt ch.id
        = [⟨nm, SlotBehavior.moduleWrapper m (.ret (some v))⟩, s₂])
    ∧ (∀ (s₂ : SerializedSlot) (f : Nat),
        emitService f (st.createConnection ch s₂) ch caller args
          = .error .multiConnNonVoid) := by
  refine ⟨?_, ?_, ?_⟩
  · have step : emitService (fuel + 2) st ch caller args
        = match st.prepareEmit ch caller (args.map Val.tag) with
          | .error f => .error f
          | .ok ev =>
              match st.connectionsAt ch.id with
              | [slot] => exec (fuel + 2) st (.runSlot ev args slot)
              | _ => .error .multiConnNonVoid := rfl
    rw [step, prepareEmit_ok st ch caller _ htype hown, hconn]
    exact exec_wrapper_enabled_ret fuel st _ args m (some v) nm hen
  · intro s₂
    rw [connectionsAt_createConnection_self st ch s₂ hid, hconn]
    rfl
  · intro s₂ f
    have hprep : (st.createConnection ch s₂).prepareEmit ch caller (args.map Val.tag)
        = .ok ((st.createConnection ch s₂).mkEmitEvent caller ch) :=
      prepareEmit_ok _ ch caller _ htype hown
    have step : emitService f (st.createConnection ch s₂) ch caller args
        = match (st.createConnection ch s₂).prepareEmit ch caller (args.map Val.tag) with
          | .error fl => .error fl
          | .ok ev =>
              match (st.createConnection ch s₂).connectionsAt ch.id with
              | [slot] => exec f (st.createConnection ch s₂) (.runSlot ev args slot)
              | _ => .error .multiConnNonVoid := rfl
    rw [step, hprep, connectionsAt_createConnection_self st ch s₂ hid, hconn]
    simp only [List.singleton_append]

/-- Witness for C1: the service call on `svc` with its single enabled
handler returns that handler's value 7. -/
theorem service_single_connection_return_w :
    emitService (0 + 2) svcSt svcCh 0 [.vint 1]
      = .ok (({ svcSt with callLog := svcSt.callLog ++ ["M::h1"] } : Flow).setLastEvent 0
          (svcSt.mkEmitEvent 0 svcCh), some (.vint 7)) :=
  (service_single_connection_return 0 svcSt svcCh 0 [.vint 1] "M::h1" 0 (.vint 7)
    (by decide) (by decide) (by decide) (by decide) (by decide)).1

/-- C1 counterexample: attaching a second slot to the single-connection
non-void channel `svc` is accepted at connection time — both slots are in
the list and no fault is raised — and the violation only surfaces at emit
time as `multiConnNonVoid`, while the single-slot emit returns the value. -/
theorem service_second_slot_accepted :
    (((svcSt.createConnection svcCh svcSlot2).connectionsAt 0).length = 2)
    ∧ ((svcSt.createConnection svcCh svcSlot2).connectionsAt 0
        = [⟨"M::h1", .moduleWrapper 0 (.ret (some (.vint 7)))⟩, svcSlot2])
    ∧ (emitService 5 (svcSt.createConnection svcCh svcSlot2) svcCh 0 [.vint 1]
        = .error .multiConnNonVoid)
    ∧ ((emitService 5 svcSt svcCh 0 [.vint 1]).toOption.map (fun p => p.2)
        = some (some (.vint 7))) :=
  ⟨by decide, by decide, by decide, by decide⟩

/-- C2 counterexample: in the concrete chain Source→M1→M2→Sink, the event
received by the sink's parent callback has depth 2, not 3. -/
theorem chain_sink_depth_not_three :
    ((chainRun.toOption.map (fun p => p.1.sinkLog.map (fun e => e.2.1.depth))) = some [2])
    ∧ ((2 : Nat) ≠ 3) :=
  ⟨by decide, by decide⟩

/-- C2 (amended): the chain Source→M1→M2→Sink delivers to the sink's
handler a single event of depth 2 (source root depth 0, M1's emission depth
1, M2's emission into the sink channel depth 2); ancestor lookup by module
name on that event finds "M1" and "Source" (and the emitting module "M2"),
and finds no module outside the chain; the three slots fire in chain
order. -/
theorem chain_causal_ancestry :
    ((chainRun.toOption.map (fun p => p.1.sinkLog.map (fun e => e.2.1))) = some [chainEvent])
    ∧ ((chainRun.toOption.map (fun p => p.1.moduleNames)) = some chainSt0.moduleNames)
    ∧ chainEvent.depth = 2
    ∧ chainEvent.moduleInAncestors chainSt0.moduleNames "M1" = true
    ∧ chainEvent.moduleInAncestors chainSt0.moduleNames "Source" = true
    ∧ (∀ nm : String, chainEvent.moduleInAncestors chainSt0.moduleNames nm = true →
        nm = "M2" ∨ nm = "M1" ∨ nm = "Source")
    ∧ ((chainRun.toOption.map (fun p => p.1.callLog))
        = some ["M1::onSrc", "M2::onM1", "Parent::onStr"]) := by
  refine ⟨by decide, by decide, by decide, by decide, by decide, ?_, by decide⟩
  intro nm h
  have h' : ((("M2" : String) == nm) || ((("M1" : String) == nm)
      || (("Source" : String) == nm))) = true := h
  simp only [Bool.or_eq_true, beq_iff_eq] at h'
  rcases h' with h' | h' | h'
  · exact Or.inl h'.symm
  · exact Or.inr (Or.inl h'.symm)
  · exact Or.inr (Or.inr h'.symm)

end NLib
